import Mathlib

/-!
A verification development for the `mcp` transport-bridging proxy repository.

The Python sources are shallowly embedded as Lean functions:

* `Dict.insert` / `Dict.get?` / `Dict.values` model Python `dict` operations
  (insertion order preserved, assignment to an existing key overwrites the
  value in place, `dict.get` returns the first matching entry);
* `MCPServerRegistry` (src/mcp_servers/base.py) becomes explicit state
  passing over such a dict keyed by server name;
* the slack tool-call handler (src/mcp_servers/slack.py) becomes a total
  function from requests to results, with the `try/except` body modelled
  by an `Except` value and an explicit catch;
* the bootstrap header / environment construction (src/mcp_proxy/__main__.py)
  becomes pure functions of the parsed arguments and the relevant
  environment variables;
* `ServerManager.create_local_server` (src/mcp_proxy/server_manager.py)
  becomes a function of the registry, the module attribute table and the
  manager state.
-/

namespace MCPProxy

/-! ## Python `dict` model

A Python `dict` is modelled as an association list in key insertion order.
Assignment `d[k] = v` overwrites the first (and, for lists built only by
assignment, the only) entry with key `k` in place, otherwise appends.
-/

/-- Python dict assignment `d[k] = v`: overwrite in place or append at the end. -/
def Dict.insert {α : Type} : List (String × α) → String → α → List (String × α)
  | [], k, v => [(k, v)]
  | p :: rest, k, v =>
      if p.1 = k then (k, v) :: rest else p :: Dict.insert rest k v

/-- Python dict lookup `d.get(k)`: the value at the first entry with key `k`. -/
def Dict.get? {α : Type} : List (String × α) → String → Option α
  | [], _ => none
  | p :: rest, k => if p.1 = k then some p.2 else Dict.get? rest k

/-- Python `list(d.values())`: values in key insertion order. -/
def Dict.values {α : Type} (d : List (String × α)) : List α :=
  d.map Prod.snd

/-- Python `list(d.keys())`: keys in insertion order. -/
def Dict.keys {α : Type} (d : List (String × α)) : List String :=
  d.map Prod.fst

/-- Python `d.update(entries)`: assign each entry of `entries` into `d` in order. -/
def Dict.update {α : Type} (d : List (String × α)) (entries : List (String × α)) :
    List (String × α) :=
  entries.foldl (fun acc kv => Dict.insert acc kv.1 kv.2) d

/-- Python `dict(pairs)`: build a dict from a list of key/value pairs, later pairs
overwriting earlier ones with the same key. -/
def Dict.ofPairs {α : Type} (pairs : List (String × α)) : List (String × α) :=
  Dict.update [] pairs

/-- Lookup returning the value of the *last* pair with the given key, the
mapping realised by `dict(pairs)`. -/
def lastAssoc {α : Type} (pairs : List (String × α)) (k : String) : Option α :=
  pairs.foldl (fun acc kv => if kv.1 = k then some kv.2 else acc) none

@[simp] theorem Dict.get?_nil {α : Type} (k : String) :
    Dict.get? ([] : List (String × α)) k = none := rfl

@[simp] theorem Dict.get?_cons {α : Type} (p : String × α) (rest : List (String × α))
    (k : String) :
    Dict.get? (p :: rest) k = if p.1 = k then some p.2 else Dict.get? rest k := rfl

theorem Dict.get?_insert_self {α : Type} (d : List (String × α)) (k : String) (v : α) :
    Dict.get? (Dict.insert d k v) k = some v := by
  induction d with
  | nil => simp [Dict.insert]
  | cons p rest ih =>
      by_cases h : p.1 = k
      · simp [Dict.insert, h]
      · simp [Dict.insert, h, ih]

theorem Dict.get?_insert_ne {α : Type} (d : List (String × α)) (k k' : String) (v : α)
    (hne : k' ≠ k) : Dict.get? (Dict.insert d k v) k' = Dict.get? d k' := by
  induction d with
  | nil => simp [Dict.insert, Ne.symm hne]
  | cons p rest ih =>
      by_cases h : p.1 = k
      · simp [Dict.insert, h, Ne.symm hne]
      · simp [Dict.insert, h, ih]

theorem Dict.keys_cons {α : Type} (p : String × α) (rest : List (String × α)) :
    Dict.keys (p :: rest) = p.1 :: Dict.keys rest := rfl

theorem Dict.keys_insert {α : Type} (d : List (String × α)) (k : String) (v : α) :
    Dict.keys (Dict.insert d k v) =
      if k ∈ Dict.keys d then Dict.keys d else Dict.keys d ++ [k] := by
  induction d with
  | nil => simp [Dict.insert, Dict.keys]
  | cons p rest ih =>
      by_cases h : p.1 = k
      · subst h
        have hmem : p.1 ∈ Dict.keys (p :: rest) := by
          rw [Dict.keys_cons]; exact List.mem_cons_self _ _
        rw [if_pos hmem]
        simp [Dict.insert, Dict.keys_cons]
      · have hcons : Dict.insert (p :: rest) k v = p :: Dict.insert rest k v := by
          simp [Dict.insert, h]
        have hmem_iff : k ∈ Dict.keys (p :: rest) ↔ k ∈ Dict.keys rest := by
          rw [Dict.keys_cons]
          constructor
          · intro hm
            rcases List.mem_cons.mp hm with h1 | h2
            · exact absurd h1.symm h
            · exact h2
          · intro hm
            exact List.mem_cons.mpr (Or.inr hm)
        rw [hcons, Dict.keys_cons, ih]
        by_cases hmem : k ∈ Dict.keys rest
        · rw [if_pos hmem, if_pos (hmem_iff.mpr hmem), Dict.keys_cons]
        · rw [if_neg hmem, if_neg (fun hm => hmem (hmem_iff.mp hm)), Dict.keys_cons]
          rfl

theorem Dict.get?_isSome_of_mem_keys {α : Type} (d : List (String × α)) (k : String)
    (h : k ∈ Dict.keys d) : (Dict.get? d k).isSome := by
  induction d with
  | nil => simp [Dict.keys] at h
  | cons p rest ih =>
      by_cases hpk : p.1 = k
      · simp [hpk]
      · rw [Dict.keys_cons] at h
        rcases List.mem_cons.mp h with h1 | h2
        · exact absurd h1.symm hpk
        · simp [hpk, ih h2]

theorem Dict.mem_keys_of_get?_isSome {α : Type} (d : List (String × α)) (k : String)
    (h : (Dict.get? d k).isSome) : k ∈ Dict.keys d := by
  induction d with
  | nil => simp [Dict.get?] at h
  | cons p rest ih =>
      by_cases hpk : p.1 = k
      · rw [Dict.keys_cons]
        exact List.mem_cons.mpr (Or.inl hpk.symm)
      · simp [hpk] at h
        rw [Dict.keys_cons]
        exact List.mem_cons.mpr (Or.inr (ih h))

/-! ## Registry (src/mcp_servers/base.py)

`ServerType`, `ServerInfo` and `MCPServerRegistry`. The class attribute
`MCPServerRegistry._servers : dict[str, ServerInfo]` becomes an explicit
`Registry` value threaded through the class methods.
-/

/-- Enum `ServerType`: type of server implementation. -/
inductive ServerType
  | STDIO
  | SSE
  deriving DecidableEq, Repr

/-- Dataclass `ServerInfo`: information about a registered server (after
`__post_init__`, which replaces `None` args/env with empty collections). -/
structure ServerInfo where
  name : String
  description : String
  server_type : ServerType
  command : String
  args : List String
  env : List (String × String)
  deriving DecidableEq, Repr

/-- The class attribute `MCPServerRegistry._servers`, passed explicitly. -/
abbrev Registry := List (String × ServerInfo)

/-- Method `MCPServerRegistry.register`: `cls._servers[server_info.name] = server_info`. -/
def MCPServerRegistry.register (d : Registry) (server_info : ServerInfo) : Registry :=
  Dict.insert d server_info.name server_info

/-- Method `MCPServerRegistry.get_server`: `cls._servers.get(name)`. -/
def MCPServerRegistry.get_server (d : Registry) (name : String) : Option ServerInfo :=
  Dict.get? d name

/-- Method `MCPServerRegistry.list_servers`: `list(cls._servers.values())`. -/
def MCPServerRegistry.list_servers (d : Registry) : List ServerInfo :=
  Dict.values d

/-- The three registry operations; only `register` mutates `_servers`. -/
inductive RegistryOp
  | register (s : ServerInfo)
  | get_server (name : String)
  | list_servers

/-- Effect of one registry operation on the `_servers` state. -/
def RegistryOp.apply (d : Registry) : RegistryOp → Registry
  | .register s => MCPServerRegistry.register d s
  | .get_server _ => d
  | .list_servers => d

/-- State `_servers` after an arbitrary sequence of registry operations. -/
def applyOps (d : Registry) (ops : List RegistryOp) : Registry :=
  ops.foldl RegistryOp.apply d

/-- State `_servers` after registering `regs` in order into the initially empty
class attribute. -/
def registryAfter (regs : List ServerInfo) : Registry :=
  regs.foldl MCPServerRegistry.register []

/-- The last `ServerInfo` named `n` in a registration sequence, if any. -/
def lastRegistered (regs : List ServerInfo) (n : String) : Option ServerInfo :=
  regs.foldl (fun acc s => if s.name = n then some s else acc) none

/-- The names of `ns` in order of first occurrence. -/
def firstOccurrences (ns : List String) : List String :=
  ns.foldl (fun acc n => if n ∈ acc then acc else acc ++ [n]) []

theorem get_server_register (d : Registry) (s : ServerInfo) (n : String) :
    MCPServerRegistry.get_server (MCPServerRegistry.register d s) n =
      if s.name = n then some s else MCPServerRegistry.get_server d n := by
  by_cases h : s.name = n
  · subst h
    simp [MCPServerRegistry.register, MCPServerRegistry.get_server, Dict.get?_insert_self]
  · have hns : n ≠ s.name := fun hh => h hh.symm
    simp [MCPServerRegistry.register, MCPServerRegistry.get_server, h,
      Dict.get?_insert_ne _ _ _ _ hns]

theorem get_server_foldl (regs : List ServerInfo) (d : Registry) (n : String) :
    MCPServerRegistry.get_server (regs.foldl MCPServerRegistry.register d) n =
      regs.foldl (fun acc s => if s.name = n then some s else acc)
        (MCPServerRegistry.get_server d n) := by
  induction regs generalizing d with
  | nil => rfl
  | cons s regs ih =>
      rw [List.foldl_cons, List.foldl_cons, ih, get_server_register]

theorem get_server_registryAfter (regs : List ServerInfo) (n : String) :
    MCPServerRegistry.get_server (registryAfter regs) n = lastRegistered regs n :=
  get_server_foldl regs [] n

theorem lastStep_foldl_eq_none (regs : List ServerInfo) (n : String)
    (acc : Option ServerInfo) :
    regs.foldl (fun acc s => if s.name = n then some s else acc) acc = none ↔
      acc = none ∧ n ∉ regs.map ServerInfo.name := by
  induction regs generalizing acc with
  | nil => simp
  | cons s regs ih =>
      rw [List.foldl_cons]
      by_cases h : s.name = n
      · rw [if_pos h, ih]
        simp [h]
      · have hns : n ≠ s.name := fun hh => h hh.symm
        rw [if_neg h, ih]
        simp [hns]

theorem lastRegistered_eq_none_iff (regs : List ServerInfo) (n : String) :
    lastRegistered regs n = none ↔ n ∉ regs.map ServerInfo.name := by
  rw [lastRegistered, lastStep_foldl_eq_none]
  simp

theorem keys_register (d : Registry) (s : ServerInfo) :
    Dict.keys (MCPServerRegistry.register d s) =
      if s.name ∈ Dict.keys d then Dict.keys d else Dict.keys d ++ [s.name] :=
  Dict.keys_insert d s.name s

theorem keys_foldl_register (regs : List ServerInfo) (d : Registry) :
    Dict.keys (regs.foldl MCPServerRegistry.register d) =
      (regs.map ServerInfo.name).foldl
        (fun acc n => if n ∈ acc then acc else acc ++ [n]) (Dict.keys d) := by
  induction regs generalizing d with
  | nil => rfl
  | cons s regs ih =>
      rw [List.map_cons, List.foldl_cons, List.foldl_cons, ih, keys_register]

theorem keys_registryAfter (regs : List ServerInfo) :
    Dict.keys (registryAfter regs) = firstOccurrences (regs.map ServerInfo.name) :=
  keys_foldl_register regs []

theorem mem_foldl_firstStep (ns : List String) (acc : List String) (m : String) :
    m ∈ ns.foldl (fun acc n => if n ∈ acc then acc else acc ++ [n]) acc ↔
      m ∈ acc ∨ m ∈ ns := by
  induction ns generalizing acc with
  | nil => simp
  | cons n ns ih =>
      rw [List.foldl_cons]
      by_cases h : n ∈ acc
      · rw [if_pos h, ih]
        constructor
        · rintro (hm | hm)
          · exact Or.inl hm
          · exact Or.inr (List.mem_cons.mpr (Or.inr hm))
        · rintro (hm | hm)
          · exact Or.inl hm
          · rcases List.mem_cons.mp hm with rfl | hm'
            · exact Or.inl h
            · exact Or.inr hm'
      · rw [if_neg h, ih]
        simp [List.mem_append, or_assoc]

theorem mem_firstOccurrences (ns : List String) (m : String) :
    m ∈ firstOccurrences ns ↔ m ∈ ns := by
  rw [firstOccurrences, mem_foldl_firstStep]
  simp

theorem nodup_foldl_firstStep (ns : List String) (acc : List String) (h : acc.Nodup) :
    (ns.foldl (fun acc n => if n ∈ acc then acc else acc ++ [n]) acc).Nodup := by
  induction ns generalizing acc with
  | nil => simpa using h
  | cons n ns ih =>
      rw [List.foldl_cons]
      by_cases hn : n ∈ acc
      · rw [if_pos hn]; exact ih acc h
      · rw [if_neg hn]
        apply ih
        simp [List.nodup_append, h, hn]

theorem firstOccurrences_nodup (ns : List String) : (firstOccurrences ns).Nodup :=
  nodup_foldl_firstStep ns [] List.nodup_nil

theorem Dict.mem_insert {α : Type} (d : List (String × α)) (k : String) (v : α)
    (p : String × α) (h : p ∈ Dict.insert d k v) : p ∈ d ∨ p = (k, v) := by
  induction d with
  | nil =>
      simp [Dict.insert] at h
      exact Or.inr (by simp [h])
  | cons q rest ih =>
      rw [show Dict.insert (q :: rest) k v
          = if q.1 = k then (k, v) :: rest else q :: Dict.insert rest k v from rfl] at h
      by_cases hq : q.1 = k
      · rw [if_pos hq] at h
        rcases List.mem_cons.mp h with rfl | hm
        · exact Or.inr rfl
        · exact Or.inl (List.mem_cons.mpr (Or.inr hm))
      · rw [if_neg hq] at h
        rcases List.mem_cons.mp h with rfl | hm
        · exact Or.inl (List.mem_cons_self _ _)
        · rcases ih hm with hm' | hm'
          · exact Or.inl (List.mem_cons.mpr (Or.inr hm'))
          · exact Or.inr hm'

/-- Every entry of the registry is keyed by the name of its `ServerInfo`. -/
def KeyIsName (d : Registry) : Prop := ∀ p ∈ d, (p : String × ServerInfo).2.name = p.1

theorem keyIsName_register (d : Registry) (s : ServerInfo) (h : KeyIsName d) :
    KeyIsName (MCPServerRegistry.register d s) := by
  intro p hp
  rcases Dict.mem_insert d s.name s p hp with hm | hm
  · exact h p hm
  · rw [hm]

theorem keyIsName_foldl (regs : List ServerInfo) (d : Registry) (h : KeyIsName d) :
    KeyIsName (regs.foldl MCPServerRegistry.register d) := by
  induction regs generalizing d with
  | nil => exact h
  | cons s regs ih =>
      rw [List.foldl_cons]
      exact ih _ (keyIsName_register d s h)

theorem keyIsName_registryAfter (regs : List ServerInfo) :
    KeyIsName (registryAfter regs) := by
  apply keyIsName_foldl
  intro p hp
  simp at hp

theorem values_eq_keys_filterMap {α : Type} (d : List (String × α))
    (h : (Dict.keys d).Nodup) :
    Dict.values d = (Dict.keys d).filterMap (fun n => Dict.get? d n) := by
  induction d with
  | nil => rfl
  | cons p rest ih =>
      rw [Dict.keys_cons] at h
      have hnot : p.1 ∉ Dict.keys rest := (List.nodup_cons.mp h).1
      have hrest : (Dict.keys rest).Nodup := (List.nodup_cons.mp h).2
      have hcong : (Dict.keys rest).filterMap (fun n => Dict.get? (p :: rest) n)
          = (Dict.keys rest).filterMap (fun n => Dict.get? rest n) := by
        apply List.filterMap_congr
        intro n hn
        have hne : p.1 ≠ n := fun hh => hnot (hh ▸ hn)
        simp [hne]
      calc Dict.values (p :: rest)
          = p.2 :: Dict.values rest := rfl
        _ = p.2 :: (Dict.keys rest).filterMap (fun n => Dict.get? rest n) := by
              rw [ih hrest]
        _ = p.2 :: (Dict.keys rest).filterMap (fun n => Dict.get? (p :: rest) n) := by
              rw [hcong]
        _ = (Dict.keys (p :: rest)).filterMap (fun n => Dict.get? (p :: rest) n) := by
              rw [Dict.keys_cons, List.filterMap_cons]
              simp

/-! ## Server manager (src/mcp_proxy/server_manager.py)

`ServerManager` routes to local servers created from the registry. The
`mcp.server.Server` objects and `BaseMCPServer` instances are opaque to the
manager: only their identity and the `create_server()` result matter here.
-/

/-- An `mcp.server.Server` object, identified by the name passed to its
constructor. -/
structure Server where
  name : String
  deriving DecidableEq, Repr

/-- A `BaseMCPServer` instance bound as a `<name>_server` attribute of the
`mcp_servers` module: its `initialize()` is a no-op coroutine and its
`create_server()` produces a `Server` (cf. `SlackMCPServer`). -/
structure ServerInstance where
  create_server : Server
  deriving DecidableEq, Repr

/-- The attribute table of the `mcp_servers` module as seen by
`getattr(mcp_servers, f"{name}_server")`. -/
abbrev ModuleAttrs := List (String × ServerInstance)

/-- State created by `ServerManager.__init__`: the `_active_servers` dict. -/
structure ServerManager where
  active_servers : List (String × Server)
  deriving DecidableEq, Repr

/-- Method `ServerManager.list_available_servers`:
`[server.name for server in MCPServerRegistry.list_servers()]`. -/
def ServerManager.list_available_servers (d : Registry) : List String :=
  (MCPServerRegistry.list_servers d).map ServerInfo.name

/-- Method `ServerManager.create_local_server`: look up the name in the registry
(`None` on a miss, after logging), fetch the `<name>_server` module attribute
(`getattr` raising `AttributeError` is modelled by a failed lookup, which the
`except (ImportError, AttributeError)` clause turns into `None`), create the
server, store it in `_active_servers[name]` and return it. -/
def ServerManager.create_local_server (reg : Registry) (mod : ModuleAttrs)
    (st : ServerManager) (name : String) : Option Server × ServerManager :=
  match MCPServerRegistry.get_server reg name with
  | none => (none, st)
  | some _ =>
      match Dict.get? mod (name ++ "_server") with
      | none => (none, st)
      | some inst =>
          let server := inst.create_server
          (some server, ⟨Dict.insert st.active_servers name server⟩)

/-- The `SlackMCPServer._server_info` value from src/mcp_servers/slack.py. -/
def slackInfo : ServerInfo :=
  { name := "slack"
  , description := "Slack MCP server for interacting with Slack API"
  , server_type := ServerType.STDIO
  , command := "slack_mcp"
  , args := []
  , env := [] }

/-- A second registration under the same name, for overwrite scenarios. -/
def slackInfoV2 : ServerInfo :=
  { slackInfo with description := "updated slack server" }

/-- The `Server` created by `SlackMCPServer.create_server`:
`server.Server("Slack MCP")`; its request handlers are modelled separately. -/
def slackAppServer : Server := ⟨"Slack MCP"⟩

/-- The `slack_server` module attribute (a `SlackMCPServer` instance). -/
def slack_server : ServerInstance := ⟨slackAppServer⟩

/-- The `<name>_server` attributes of the `mcp_servers` module that are
present under src/ (`googlesheets_server` is declared in `__init__.py` but
its defining module is not part of the sources). -/
def mcpServersAttrs : ModuleAttrs := [("slack_server", slack_server)]

/-- C3: The registry is append/overwrite by name and never deletes:
after `register(s)`, `get_server(s.name)` returns `s`; registering a second
`ServerInfo` with the same name replaces the first; and no sequence of
registry operations removes an entry, so a name whose lookup succeeds keeps
succeeding for the rest of the process lifetime. -/
theorem registry_append_overwrite_never_deletes :
    (∀ (d : Registry) (s : ServerInfo),
      MCPServerRegistry.get_server (MCPServerRegistry.register d s) s.name = some s) ∧
    (∀ (d : Registry) (s₁ s₂ : ServerInfo), s₂.name = s₁.name →
      MCPServerRegistry.get_server
        (MCPServerRegistry.register (MCPServerRegistry.register d s₁) s₂) s₁.name
        = some s₂) ∧
    (∀ (d : Registry) (ops : List RegistryOp) (n : String),
      (MCPServerRegistry.get_server d n).isSome →
      (MCPServerRegistry.get_server (applyOps d ops) n).isSome) := by
  refine ⟨?_, ?_, ?_⟩
  · intro d s
    rw [get_server_register, if_pos rfl]
  · intro d s₁ s₂ hname
    rw [get_server_register, if_pos hname]
  · intro d ops n h
    induction ops generalizing d with
    | nil => exact h
    | cons op ops ih =>
        have hstep : (MCPServerRegistry.get_server (RegistryOp.apply d op) n).isSome := by
          cases op with
          | register s =>
              simp only [RegistryOp.apply]
              rw [get_server_register]
              by_cases hn : s.name = n
              · rw [if_pos hn]; rfl
              · rw [if_neg hn]; exact h
          | get_server m => exact h
          | list_servers => exact h
        exact ih (RegistryOp.apply d op) hstep

/-- Witness for C3: registering `slackInfo` then an overwrite under the same
name yields the overwriting entry, and a further operation sequence keeps the
entry present. -/
theorem registry_append_overwrite_never_deletes_witness :
    MCPServerRegistry.get_server
      (MCPServerRegistry.register (MCPServerRegistry.register [] slackInfo) slackInfoV2)
      "slack" = some slackInfoV2 ∧
    (MCPServerRegistry.get_server
      (applyOps [("slack", slackInfo)] [RegistryOp.register slackInfoV2]) "slack").isSome := by
  constructor
  · have h := registry_append_overwrite_never_deletes.2.1 [] slackInfo slackInfoV2 rfl
    simpa [slackInfo] using h
  · exact registry_append_overwrite_never_deletes.2.2 [("slack", slackInfo)]
      [RegistryOp.register slackInfoV2] "slack" (by decide)

/-- C4: For every name, `get_server` returns the registered `ServerInfo`
or `None`: the result is `None` exactly when no `ServerInfo` with that name
has been registered; being a total function of the registry state, the
lookup never raises. -/
theorem get_server_none_iff_unregistered (regs : List ServerInfo) (n : String) :
    MCPServerRegistry.get_server (registryAfter regs) n = none ↔
      n ∉ regs.map ServerInfo.name := by
  rw [get_server_registryAfter]
  exact lastRegistered_eq_none_iff regs n

/-- C5: `list_servers` returns every registered entry exactly once, in
the order the name of the entry was first registered (an overwrite keeps the
position of the name and stores the last value registered under it), and
`list_available_servers` returns exactly those names in the same order. -/
theorem list_servers_first_registration_order (regs : List ServerInfo) :
    MCPServerRegistry.list_servers (registryAfter regs) =
      (firstOccurrences (regs.map ServerInfo.name)).filterMap
        (fun n => lastRegistered regs n) ∧
    (∀ m, m ∈ firstOccurrences (regs.map ServerInfo.name) ↔
      m ∈ regs.map ServerInfo.name) ∧
    (firstOccurrences (regs.map ServerInfo.name)).Nodup ∧
    ServerManager.list_available_servers (registryAfter regs) =
      firstOccurrences (regs.map ServerInfo.name) := by
  have hkeys := keys_registryAfter regs
  have hnodup : (Dict.keys (registryAfter regs)).Nodup := by
    rw [hkeys]; exact firstOccurrences_nodup _
  have hvals := values_eq_keys_filterMap (registryAfter regs) hnodup
  refine ⟨?_, fun m => mem_firstOccurrences _ m, firstOccurrences_nodup _, ?_⟩
  · rw [MCPServerRegistry.list_servers, hvals, hkeys]
    apply List.filterMap_congr
    intro n _
    exact get_server_registryAfter regs n
  · rw [ServerManager.list_available_servers, MCPServerRegistry.list_servers]
    have hkin := keyIsName_registryAfter regs
    have hmap : (Dict.values (registryAfter regs)).map ServerInfo.name
        = Dict.keys (registryAfter regs) := by
      rw [Dict.values, Dict.keys, List.map_map]
      apply List.map_congr_left
      intro p hp
      exact hkin p hp
    rw [hmap, hkeys]

/-- C6: `create_local_server(name)` returns `None` exactly when the name
is not in the registry or the `mcp_servers` module has no `<name>_server`
attribute; on success it returns the server created by the instance and
records it under `name` in the `_active_servers` table of the manager. -/
theorem create_local_server_spec (reg : Registry) (mod : ModuleAttrs)
    (st : ServerManager) (name : String) :
    ((ServerManager.create_local_server reg mod st name).1 = none ↔
      MCPServerRegistry.get_server reg name = none ∨
        Dict.get? mod (name ++ "_server") = none) ∧
    (∀ inst : ServerInstance,
      MCPServerRegistry.get_server reg name ≠ none →
      Dict.get? mod (name ++ "_server") = some inst →
      ServerManager.create_local_server reg mod st name =
        (some inst.create_server,
         ⟨Dict.insert st.active_servers name inst.create_server⟩) ∧
      Dict.get? (ServerManager.create_local_server reg mod st name).2.active_servers
        name = some inst.create_server) := by
  constructor
  · cases hreg : MCPServerRegistry.get_server reg name with
    | none => simp [ServerManager.create_local_server, hreg]
    | some s =>
        cases hmod : Dict.get? mod (name ++ "_server") with
        | none => simp [ServerManager.create_local_server, hreg, hmod]
        | some inst => simp [ServerManager.create_local_server, hreg, hmod]
  · intro inst hreg hmod
    cases hr : MCPServerRegistry.get_server reg name with
    | none => exact absurd hr hreg
    | some s =>
        constructor
        · simp [ServerManager.create_local_server, hr, hmod]
        · simp [ServerManager.create_local_server, hr, hmod, Dict.get?_insert_self]

/-- Witness for C6: creating the registered `slack` server stores and returns
`Server("Slack MCP")`. -/
theorem create_local_server_spec_witness :
    ServerManager.create_local_server (registryAfter [slackInfo]) mcpServersAttrs
      ⟨[]⟩ "slack" = (some slackAppServer, ⟨[("slack", slackAppServer)]⟩) ∧
    Dict.get? (ServerManager.create_local_server (registryAfter [slackInfo])
      mcpServersAttrs ⟨[]⟩ "slack").2.active_servers "slack" = some slackAppServer := by
  have h := (create_local_server_spec (registryAfter [slackInfo]) mcpServersAttrs
      ⟨[]⟩ "slack").2 slack_server (by decide) (by decide)
  refine ⟨?_, h.2⟩
  simpa [slack_server, Dict.insert] using h.1

/-! ## Slack server tool handling (src/mcp_servers/slack.py)

The `_call_tool` closure registered for `CallToolRequest`. Python argument
values are identified with their string rendering; `param not in arguments`
is a failed `Dict.get?`; the `try/except Exception` body is modelled by an
`Except String` value, an `Except.error` carrying `str(e)`.
-/

/-- One JSON-schema entry of the `parameters` dict of a tool. -/
structure ParamSpec where
  description : String
  type : String
  deriving DecidableEq, Repr

/-- Dataclass `SlackTool`. -/
structure SlackTool where
  name : String
  description : String
  parameters : List (String × ParamSpec)
  required_parameters : List String
  deriving DecidableEq, Repr

/-- The `SLACK_POST_MESSAGE` tool from `SlackMCPServer.__init__`. -/
def slackPostMessageTool : SlackTool :=
  { name := "SLACK_POST_MESSAGE"
  , description := "Send a message to a Slack channel"
  , parameters :=
      [ ("channel", ⟨"The channel to send the message to", "string"⟩)
      , ("text", ⟨"The text of the message to send", "string"⟩) ]
  , required_parameters := ["channel", "text"] }

/-- The `SLACK_LIST_CHANNELS` tool from `SlackMCPServer.__init__`. -/
def slackListChannelsTool : SlackTool :=
  { name := "SLACK_LIST_CHANNELS"
  , description := "List all available Slack channels"
  , parameters := []
  , required_parameters := [] }

/-- The `self._tools` list built in `SlackMCPServer.__init__`. -/
def slackTools : List SlackTool := [slackPostMessageTool, slackListChannelsTool]

/-- Model of `types.CallToolRequestParams`: tool name and optional arguments. -/
structure CallToolRequestParams where
  name : String
  arguments : Option (List (String × String))
  deriving DecidableEq, Repr

/-- Model of `types.CallToolRequest`. -/
structure CallToolRequest where
  params : CallToolRequestParams
  deriving DecidableEq, Repr

/-- Model of `types.TextContent`. -/
structure TextContent where
  type : String
  text : String
  deriving DecidableEq, Repr

/-- Model of `types.CallToolResult`. -/
structure CallToolResult where
  content : List TextContent
  isError : Bool
  deriving DecidableEq, Repr

/-- Model of `types.ServerResult` as produced by the slack tool-call handler. -/
inductive ServerResult
  | callTool (result : CallToolResult)
  deriving DecidableEq, Repr

/-- The `try:` body of `_call_tool` for a tool that passed the
required-parameter check. `arguments[k]` raises `KeyError` (whose `str` is
the quoted key) on a missing key. -/
def slackToolBody (tool_name : String) (arguments : List (String × String)) :
    Except String CallToolResult :=
  if tool_name = "SLACK_POST_MESSAGE" then
    match Dict.get? arguments "channel" with
    | none => Except.error "\x27channel\x27"
    | some channel =>
        match Dict.get? arguments "text" with
        | none => Except.error "\x27text\x27"
        | some text =>
            Except.ok
              { content := [⟨"text", "Message sent to " ++ channel ++ ": " ++ text⟩]
              , isError := false }
  else if tool_name = "SLACK_LIST_CHANNELS" then
    Except.ok
      { content := [⟨"text", "Available channels: "
          ++ String.intercalate ", " ["#general", "#random", "#development"]⟩]
      , isError := false }
  else
    Except.ok
      { content := [⟨"text", "Tool " ++ tool_name ++ " is not implemented"⟩]
      , isError := true }

/-- The `except Exception as e:` clause of `_call_tool`: a raised exception
becomes a `CallToolResult` with `isError=True` carrying the exception text. -/
def handleToolException : Except String CallToolResult → ServerResult
  | Except.ok r => ServerResult.callTool r
  | Except.error e =>
      ServerResult.callTool { content := [⟨"text", e⟩], isError := true }

/-- Handler `_call_tool` from `SlackMCPServer.create_server`: `None` arguments
default to the empty dict (`req.params.arguments or {}`); an unknown tool
and a missing required parameter yield error results; the remaining body
runs under `try/except`. -/
def slack_call_tool (req : CallToolRequest) : ServerResult :=
  match slackTools.find? (fun t => t.name == req.params.name) with
  | none =>
      ServerResult.callTool
        { content := [⟨"text", "Tool " ++ req.params.name ++ " not found"⟩]
        , isError := true }
  | some tool =>
      match tool.required_parameters.find?
          (fun p => (Dict.get? (req.params.arguments.getD []) p).isNone) with
      | some param =>
          ServerResult.callTool
            { content := [⟨"text", "Missing required parameter: " ++ param⟩]
            , isError := true }
      | none =>
          handleToolException
            (slackToolBody req.params.name (req.params.arguments.getD []))

/-- C2: Application-level validation failures in the slack tool-call
handler are returned as ordinary error results, never raised: an unknown
tool name yields `isError=true` with text `Tool <name> not found`; a known
tool with a required parameter absent from the arguments yields
`isError=true` with text `Missing required parameter: <param>` (the handler
reports the first absent required parameter, and some required parameter is
reported whenever any is absent). -/
theorem slack_call_tool_validation_errors (req : CallToolRequest) :
    (slackTools.find? (fun t => t.name == req.params.name) = none →
      slack_call_tool req = ServerResult.callTool
        { content := [⟨"text", "Tool " ++ req.params.name ++ " not found"⟩]
        , isError := true }) ∧
    (∀ tool q, slackTools.find? (fun t => t.name == req.params.name) = some tool →
      tool.required_parameters.find?
          (fun p => (Dict.get? (req.params.arguments.getD []) p).isNone) = some q →
      slack_call_tool req = ServerResult.callTool
        { content := [⟨"text", "Missing required parameter: " ++ q⟩]
        , isError := true }) ∧
    (∀ tool p, slackTools.find? (fun t => t.name == req.params.name) = some tool →
      p ∈ tool.required_parameters →
      Dict.get? (req.params.arguments.getD []) p = none →
      (tool.required_parameters.find?
          (fun p => (Dict.get? (req.params.arguments.getD []) p).isNone)).isSome) := by
  refine ⟨?_, ?_, ?_⟩
  · intro hfind
    simp only [slack_call_tool, hfind]
  · intro tool q hfind hq
    simp only [slack_call_tool, hfind, hq]
  · intro tool p _ hp hmiss
    rw [List.find?_isSome]
    exact ⟨p, hp, by simp [hmiss]⟩

/-- Witness for C2: calling the unknown tool `SLACK_DELETE_MESSAGE`, and
calling `SLACK_POST_MESSAGE` with only `text` supplied. -/
theorem slack_call_tool_validation_errors_witness :
    slack_call_tool ⟨⟨"SLACK_DELETE_MESSAGE", some []⟩⟩ = ServerResult.callTool
      { content := [⟨"text", "Tool SLACK_DELETE_MESSAGE not found"⟩]
      , isError := true } ∧
    slack_call_tool ⟨⟨"SLACK_POST_MESSAGE", some [("text", "hi")]⟩⟩ =
      ServerResult.callTool
        { content := [⟨"text", "Missing required parameter: channel"⟩]
        , isError := true } ∧
    (slackPostMessageTool.required_parameters.find?
        (fun p => (Dict.get? [("text", "hi")] p).isNone)).isSome := by
  refine ⟨?_, ?_, ?_⟩
  · exact (slack_call_tool_validation_errors ⟨⟨"SLACK_DELETE_MESSAGE", some []⟩⟩).1
      (by decide)
  · exact (slack_call_tool_validation_errors
      ⟨⟨"SLACK_POST_MESSAGE", some [("text", "hi")]⟩⟩).2.1
      slackPostMessageTool "channel" (by decide) (by decide)
  · exact (slack_call_tool_validation_errors
      ⟨⟨"SLACK_POST_MESSAGE", some [("text", "hi")]⟩⟩).2.2
      slackPostMessageTool "channel" (by decide) (by decide) (by decide)

/-- C10: The slack tool-call handler is total: every request gets a
`ServerResult`; `None` arguments are handled exactly like the empty argument
map, so `SLACK_LIST_CHANNELS` with no arguments succeeds while
`SLACK_POST_MESSAGE` with no arguments yields a missing-required-parameter
error result; and an exception raised by the body of a known tool is caught
and converted into an `isError=true` result carrying the exception text. -/
theorem slack_call_tool_total :
    (∀ req : CallToolRequest, ∃ r, slack_call_tool req = r) ∧
    (∀ name, slack_call_tool ⟨⟨name, none⟩⟩ = slack_call_tool ⟨⟨name, some []⟩⟩) ∧
    slack_call_tool ⟨⟨"SLACK_LIST_CHANNELS", none⟩⟩ = ServerResult.callTool
      { content := [⟨"text", "Available channels: #general, #random, #development"⟩]
      , isError := false } ∧
    slack_call_tool ⟨⟨"SLACK_POST_MESSAGE", none⟩⟩ = ServerResult.callTool
      { content := [⟨"text", "Missing required parameter: channel"⟩]
      , isError := true } ∧
    (∀ e, handleToolException (Except.error e) =
      ServerResult.callTool { content := [⟨"text", e⟩], isError := true }) :=
  ⟨fun req => ⟨slack_call_tool req, rfl⟩, fun _ => rfl, by decide, by decide,
    fun _ => rfl⟩

/-! ## Further dict lemmas, for the bootstrap claims -/

theorem Dict.get?_insert {α : Type} (d : List (String × α)) (a k : String) (v : α) :
    Dict.get? (Dict.insert d a v) k = if a = k then some v else Dict.get? d k := by
  by_cases h : a = k
  · subst h
    simp [Dict.get?_insert_self]
  · have hne : k ≠ a := fun hh => h hh.symm
    simp [h, Dict.get?_insert_ne d a k v hne]

theorem Dict.get?_update {α : Type} (es d : List (String × α)) (k : String) :
    Dict.get? (Dict.update d es) k =
      es.foldl (fun acc kv => if kv.1 = k then some kv.2 else acc) (Dict.get? d k) := by
  induction es generalizing d with
  | nil => rfl
  | cons kv es ih =>
      rw [Dict.update, List.foldl_cons, List.foldl_cons]
      rw [show es.foldl (fun acc kv => Dict.insert acc kv.1 kv.2)
            (Dict.insert d kv.1 kv.2) = Dict.update (Dict.insert d kv.1 kv.2) es from rfl]
      rw [ih, Dict.get?_insert]

theorem foldl_lastWins {α : Type} (es : List (String × α)) (k : String)
    (acc : Option α) :
    es.foldl (fun acc kv => if kv.1 = k then some kv.2 else acc) acc =
      match lastAssoc es k with
      | some v => some v
      | none => acc := by
  induction es generalizing acc with
  | nil => rfl
  | cons kv es ih =>
      rw [List.foldl_cons, ih]
      rw [show lastAssoc (kv :: es) k
          = es.foldl (fun acc kv => if kv.1 = k then some kv.2 else acc)
              (if kv.1 = k then some kv.2 else none) from rfl, ih]
      cases hl : lastAssoc es k <;> by_cases h : kv.1 = k <;> simp [h]

theorem Dict.get?_ofPairs {α : Type} (pairs : List (String × α)) (k : String) :
    Dict.get? (Dict.ofPairs pairs) k = lastAssoc pairs k := by
  rw [Dict.ofPairs, Dict.get?_update, foldl_lastWins]
  cases lastAssoc pairs k <;> simp

theorem foldl_lastWins_eq_none {α : Type} (ps : List (String × α)) (k : String)
    (acc : Option α) :
    ps.foldl (fun acc kv => if kv.1 = k then some kv.2 else acc) acc = none ↔
      acc = none ∧ k ∉ Dict.keys ps := by
  induction ps generalizing acc with
  | nil => simp [Dict.keys]
  | cons p rest ih =>
      rw [List.foldl_cons, ih, Dict.keys_cons]
      by_cases h : p.1 = k
      · simp [h]
      · have hks : k ≠ p.1 := fun hh => h hh.symm
        simp [h, hks]

theorem lastAssoc_eq_none_iff {α : Type} (ps : List (String × α)) (k : String) :
    lastAssoc ps k = none ↔ k ∉ Dict.keys ps := by
  rw [lastAssoc, foldl_lastWins_eq_none]
  simp

theorem Dict.keys_insert_nodup {α : Type} (d : List (String × α)) (k : String)
    (v : α) (h : (Dict.keys d).Nodup) : (Dict.keys (Dict.insert d k v)).Nodup := by
  rw [Dict.keys_insert]
  by_cases hm : k ∈ Dict.keys d
  · rw [if_pos hm]; exact h
  · rw [if_neg hm]
    simp [List.nodup_append, h, hm]

theorem Dict.keys_update_nodup {α : Type} (es d : List (String × α))
    (h : (Dict.keys d).Nodup) : (Dict.keys (Dict.update d es)).Nodup := by
  induction es generalizing d with
  | nil => exact h
  | cons kv es ih =>
      rw [Dict.update, List.foldl_cons]
      exact ih _ (Dict.keys_insert_nodup d kv.1 kv.2 h)

theorem Dict.keys_ofPairs_nodup {α : Type} (pairs : List (String × α)) :
    (Dict.keys (Dict.ofPairs pairs)).Nodup :=
  Dict.keys_update_nodup pairs [] List.nodup_nil

theorem lastAssoc_of_keys_nodup {α : Type} (d : List (String × α)) (k : String)
    (h : (Dict.keys d).Nodup) : lastAssoc d k = Dict.get? d k := by
  induction d with
  | nil => rfl
  | cons p rest ih =>
      rw [Dict.keys_cons] at h
      have hnot : p.1 ∉ Dict.keys rest := (List.nodup_cons.mp h).1
      have hrest : (Dict.keys rest).Nodup := (List.nodup_cons.mp h).2
      rw [show lastAssoc (p :: rest) k
          = rest.foldl (fun acc kv => if kv.1 = k then some kv.2 else acc)
              (if p.1 = k then some p.2 else none) from rfl, foldl_lastWins]
      by_cases hk : p.1 = k
      · subst hk
        have : lastAssoc rest p.1 = none := (lastAssoc_eq_none_iff rest p.1).mpr hnot
        rw [this]
        simp
      · rw [Dict.get?_cons, if_neg hk, ← ih hrest]
        cases lastAssoc rest k <;> simp [hk]

theorem lastAssoc_ofPairs {α : Type} (pairs : List (String × α)) (k : String) :
    lastAssoc (Dict.ofPairs pairs) k = lastAssoc pairs k := by
  rw [lastAssoc_of_keys_nodup _ _ (Dict.keys_ofPairs_nodup pairs), Dict.get?_ofPairs]

/-! ## Bootstrap (src/mcp_proxy/__main__.py)

The header and environment construction performed in `main` before handing
off to `run_sse_client` / `run_sse_server`. Environment variables are
`none` when unset, `some v` when set to `v`.
-/

/-- The SSE-client headers built in `main`: `headers = dict(args.headers)`;
then `if api_access_token := os.getenv("API_ACCESS_TOKEN", None):` — truthy
only for a set, non-empty value — assigns
`headers["Authorization"] = f"Bearer {api_access_token}"`. -/
def buildSseHeaders (headerPairs : List (String × String))
    (apiAccessToken : Option String) : List (String × String) :=
  match apiAccessToken with
  | some tok =>
      if tok ≠ "" then
        Dict.insert (Dict.ofPairs headerPairs) "Authorization" ("Bearer " ++ tok)
      else Dict.ofPairs headerPairs
  | none => Dict.ofPairs headerPairs

/-- The environment for a spawned stdio server process in `main`:
`env = {}`; `if args.pass_environment: env.update(os.environ)`;
`env.update(dict(args.env))`. -/
def buildStdioEnv (passEnvironment : Bool) (osEnviron : List (String × String))
    (envPairs : List (String × String)) : List (String × String) :=
  Dict.update (if passEnvironment then Dict.update [] osEnviron else [])
    (Dict.ofPairs envPairs)

/-- C7 counterexample: `API_ACCESS_TOKEN` present but set to the empty
string is falsy in the walrus-`if`, so no `Authorization` header is
injected even though the variable is present. -/
theorem api_token_present_but_empty_not_injected :
    (some "" : Option String) ≠ none ∧
    Dict.get? (buildSseHeaders [] (some "")) "Authorization" = none := by
  decide

/-- C7 (amended): When `API_ACCESS_TOKEN` is present with a non-empty
value, the bootstrap injects an `Authorization: Bearer <token>` header into
the headers handed to the SSE client connection; when it is absent — or
present but empty, hence falsy — the headers are exactly `dict(args.headers)`
and no `Authorization` header is added by the bootstrap. -/
theorem api_token_injection (headerPairs : List (String × String)) (tok : String)
    (htok : tok ≠ "") :
    Dict.get? (buildSseHeaders headerPairs (some tok)) "Authorization"
      = some ("Bearer " ++ tok) ∧
    buildSseHeaders headerPairs none = Dict.ofPairs headerPairs ∧
    buildSseHeaders headerPairs (some "") = Dict.ofPairs headerPairs := by
  refine ⟨?_, rfl, by simp [buildSseHeaders]⟩
  rw [buildSseHeaders]
  rw [if_pos htok]
  exact Dict.get?_insert_self _ _ _

/-- Witness for C7 at a concrete non-empty token. -/
theorem api_token_injection_witness :
    ("secret" : String) ≠ "" ∧
    Dict.get? (buildSseHeaders [("X-Trace", "1")] (some "secret")) "Authorization"
      = some ("Bearer " ++ "secret") :=
  ⟨by decide, (api_token_injection [("X-Trace", "1")] "secret" (by decide)).1⟩

/-- C8 counterexample: With `--headers A 1 --headers A 2`,
`dict(args.headers)` maps `A` to `2`; the first given pair `(A, 1)` is not
reflected in the headers passed to `run_sse_client`. -/
theorem headers_duplicate_key_not_verbatim :
    ("A", "1") ∈ [("A", "1"), ("A", "2")] ∧
    Dict.get? (buildSseHeaders [("A", "1"), ("A", "2")] none) "A" ≠ some "1" := by
  decide

/-- C8 (amended): The headers passed to `run_sse_client` map each given
KEY to the unmodified VALUE of the *last* `--headers` pair with that KEY:
unconditionally when `API_ACCESS_TOKEN` is not set, and for every KEY other
than `Authorization` (which the token injection of C7 overrides) when it
is. -/
theorem headers_forwarded_last_wins (pairs : List (String × String))
    (k v : String) (hlast : lastAssoc pairs k = some v) :
    Dict.get? (buildSseHeaders pairs none) k = some v ∧
    (∀ tok, k ≠ "Authorization" →
      Dict.get? (buildSseHeaders pairs (some tok)) k = some v) := by
  have hbase : Dict.get? (Dict.ofPairs pairs) k = some v := by
    rw [Dict.get?_ofPairs, hlast]
  refine ⟨hbase, ?_⟩
  intro tok hk
  rw [buildSseHeaders]
  by_cases ht : tok = ""
  · simp [ht, hbase]
  · rw [if_pos ht]
    rw [Dict.get?_insert_ne _ _ _ _ hk]
    exact hbase

/-- Witness for C8: duplicate `A` pairs plus an unrelated `B` pair, with and
without a token. -/
theorem headers_forwarded_last_wins_witness :
    lastAssoc [("A", "1"), ("A", "2"), ("B", "3")] "A" = some "2" ∧
    Dict.get? (buildSseHeaders [("A", "1"), ("A", "2"), ("B", "3")] none) "A"
      = some "2" ∧
    Dict.get? (buildSseHeaders [("A", "1"), ("A", "2"), ("B", "3")] (some "t")) "A"
      = some "2" :=
  ⟨by decide,
   (headers_forwarded_last_wins [("A", "1"), ("A", "2"), ("B", "3")] "A" "2"
     (by decide)).1,
   (headers_forwarded_last_wins [("A", "1"), ("A", "2"), ("B", "3")] "A" "2"
     (by decide)).2 "t" (by decide)⟩

/-- C9: the environment of the spawned stdio server is exactly: the full
process environment when `--pass-environment` is set, otherwise empty, in
either case overridden by the `-e` (`--env`) pairs — per variable, the last
`-e` pair for it wins, else the inherited value when passing the
environment, else nothing. -/
theorem stdio_env_spec (passEnvironment : Bool)
    (osEnviron envPairs : List (String × String)) (k : String) :
    (Dict.get? (buildStdioEnv passEnvironment osEnviron envPairs) k =
      match lastAssoc envPairs k with
      | some v => some v
      | none => if passEnvironment then lastAssoc osEnviron k else none) ∧
    buildStdioEnv passEnvironment osEnviron [] =
      (if passEnvironment then Dict.ofPairs osEnviron else []) := by
  constructor
  · rw [buildStdioEnv, Dict.get?_update, foldl_lastWins, lastAssoc_ofPairs]
    cases lastAssoc envPairs k with
    | some v => rfl
    | none =>
        by_cases hp : passEnvironment
        · simp only [hp, if_true]
          exact Dict.get?_ofPairs osEnviron k
        · simp [hp]
  · rfl

/-! ## Proxy core forwarding

`ServerManager.create_proxy_server` (src/mcp_proxy/server_manager.py)
delegates to `mcp_proxy.proxy_server.create_proxy_server`, whose defining
module is not among the sources; only its caller is. The forwarding
behaviour is therefore modelled from the spec (§4.3, §7).
-/

/-- Modelled from the spec (src/mcp_proxy/proxy_server.py is missing; §4.2,
§4.3): the outcome of `remoteSession.call` for a forwarded request — a
result payload, a `RemoteError` carrying code/message/data unchanged, or a
local transport failure. -/
inductive RemoteOutcome
  | success (result : String)
  | remoteError (code : Int) (message : String) (data : Option String)
  | transportFailure
  deriving DecidableEq, Repr

/-- Modelled from the spec (§3): a protocol `Response` carries exactly one
of result/error, under a `CorrelationId`. -/
inductive Response
  | ok (id : Nat) (result : String)
  | err (id : Nat) (code : Int) (message : String) (data : Option String)
  deriving DecidableEq, Repr

/-- Modelled from the spec (§4.3): the error code denoting upstream
unavailability; the spec fixes its existence, not its value. -/
def upstreamUnavailableCode : Int := -32000

/-- Modelled from the spec (src/mcp_proxy/proxy_server.py is missing; §4.3,
§7): `forward(incomingRequest)` translates the outcome of the remote call into
exactly one `Response` under the local id — the result wrapped on success,
the code/message/data of the `RemoteError` unmodified, or a synthesized
upstream-unavailable error on transport failure. -/
def forwardRequest (localId : Nat) (outcome : RemoteOutcome) : Response :=
  match outcome with
  | .success r => .ok localId r
  | .remoteError c m d => .err localId c m d
  | .transportFailure =>
      .err localId upstreamUnavailableCode "upstream unavailable" none

/-- Modelled from the spec (§4.2): the outcome of relaying a notification
through `remoteSession.notify`. -/
inductive NotifyOutcome
  | sent
  | failed (message : String)
  deriving DecidableEq, Repr

/-- Modelled from the spec (§4.3, §7): the externally visible effect of
`forward(incomingNotification)` — an optional log entry, and never a
`Response`, since no caller awaits one. -/
def forwardNotification (outcome : NotifyOutcome) : Option String × Option Response :=
  match outcome with
  | .sent => (none, none)
  | .failed m => (some m, none)

/-- C1: Every forwarded Request yields exactly one Response under its
local id — a success response exactly on a successful remote call, and an
error response (the relayed remote error, or the synthesized
upstream-unavailable error) in every failure case, so no error of a
request/response pair is silently swallowed; a notification that fails to
relay produces a log entry only, never a Response. -/
theorem proxy_one_response_per_request :
    (∀ (localId : Nat) (outcome : RemoteOutcome),
      (∃ r, forwardRequest localId outcome = Response.ok localId r) ∨
      (∃ c m d, forwardRequest localId outcome = Response.err localId c m d)) ∧
    (∀ localId r,
      forwardRequest localId (RemoteOutcome.success r) = Response.ok localId r) ∧
    (∀ localId c m d,
      forwardRequest localId (RemoteOutcome.remoteError c m d)
        = Response.err localId c m d) ∧
    (∀ localId,
      forwardRequest localId RemoteOutcome.transportFailure
        = Response.err localId upstreamUnavailableCode "upstream unavailable" none) ∧
    (∀ m, forwardNotification (NotifyOutcome.failed m) = (some m, none)) := by
  refine ⟨?_, fun _ _ => rfl, fun _ _ _ _ => rfl, fun _ => rfl, fun _ => rfl⟩
  intro localId outcome
  cases outcome with
  | success r => exact Or.inl ⟨r, rfl⟩
  | remoteError c m d => exact Or.inr ⟨c, m, d, rfl⟩
  | transportFailure =>
      exact Or.inr ⟨upstreamUnavailableCode, "upstream unavailable", none, rfl⟩

end MCPProxy
